import Mathlib

/-!
Shallow embedding of the producer / worker-pool / retry / metrics-aggregation
pipeline of the opensearch-sparse-benchmark repository
(`benchmark/locust/locust_runner.py` and `benchmark/locust/locust_manager.py`),
together with theorems settling the frozen claims about it.

Modelling conventions, used throughout:
* Python integers are `Int` (arbitrary precision); document counts that are
  lengths of lists are `Nat`.
* Wall-clock measurements (latencies, timestamps) are opaque nondeterministic
  inputs, represented as rationals supplied by the environment.
* An NDJSON bulk body string is represented by its list of lines: the source
  only ever inspects a body via `bulk_body.strip().split('\n')`, and the bodies
  it builds are newline-joins of their lines with one trailing newline, so the
  string and its line list are in exact correspondence.  The JSON action line
  built by `json.dumps` is kept as an opaque string; no claim inspects its text.
* Each request made by a worker is answered by an oracle (`Nat → Attempt`)
  giving, per attempt index, either the parsed response or the
  `OpenSearchException` the client call raises.  This models the
  target-service contract of the spec: the client either returns a response
  dict or raises an `OpenSearchException`, which is exactly what the
  `try/except OpenSearchException` boundary in the source distinguishes.
* Bounded while-loops are written with an explicit fuel argument that is
  provably sufficient (the retry loop runs at most `max_retries + 1` times),
  so every definition is structurally recursive and kernel-computable.
-/

/-- One entry of the `items` array of a bulk response.  The source reads
`item[action].get('error')`; only the truthiness of that annotation matters. -/
structure BulkItem where
  error : Bool
deriving DecidableEq

/-- A bulk response as read by the source: the top-level `errors` flag and the
per-item array aligned by index with the submitted documents. -/
structure BulkResponse where
  errors : Bool
  items : List BulkItem
deriving DecidableEq

/-- Outcome of one `client.bulk` / `client.search` call: either a parsed
response together with the measured elapsed time, or an `OpenSearchException`
carrying its message, together with the measured elapsed time. -/
inductive Attempt where
  | resp (r : BulkResponse) (elapsed : ℚ)
  | exc (msg : String) (elapsed : ℚ)
deriving DecidableEq

/-- Mirror of the `RunnerMetrics` dataclass of `locust_runner.py`: the
per-worker accumulator. -/
structure RunnerMetrics where
  runner_id : Nat
  success_count : Int := 0
  fail_count : Int := 0
  retry_count : Int := 0
  request_count : Int := 0
  total_docs : Int := 0
  latencies : List ℚ := []
  errors : List String := []
  start_time : ℚ := 0
  end_time : ℚ := 0
deriving DecidableEq

/-- Metrics accumulator as constructed at worker start:
`RunnerMetrics(runner_id=runner_id)`. -/
def initMetrics (id : Nat) : RunnerMetrics := { runner_id := id }

/-- Mirror of the payload dict put on the shared queue: `body` (NDJSON bulk
body for ingest, raw query body for search, represented by its lines),
`doc_count`, `retry_count` (always 0, never read by the worker) and the
`doc_id` key added only by `_produce_single`. -/
structure Payload where
  body : List String
  doc_count : Nat
  retry_count : Nat := 0
  doc_id : Option String := none
deriving DecidableEq

/-- Translation of the `for i, item in enumerate(response.get('items', []))`
loop body of `_extract_failed_docs`; the first argument of the recursion is
the running `enumerate` index.  For each item carrying an error annotation the
count is incremented, and — when `i * 2 + 1 < len(lines)` — the action line
and content line of the failed item are appended. -/
def collectFailed (lines : List String) : Nat → List BulkItem → List String × Nat
  | _, [] => ([], 0)
  | i, it :: rest =>
    let p := collectFailed lines (i + 1) rest
    if it.error then
      if i * 2 + 1 < lines.length then
        (lines.getD (i * 2) "" :: lines.getD (i * 2 + 1) "" :: p.1, p.2 + 1)
      else (p.1, p.2 + 1)
    else p

/-- Translation of `_extract_failed_docs` of `locust_runner.py`.  The bulk
body string is represented by its list of lines (`strip().split('\n')` of the
source); the returned retry sub-batch, a newline-join in the source, is
likewise represented by its lines, `none` standing for Python `None`. -/
def extract_failed_docs (lines : List String) (response : BulkResponse) :
    Option (List String) × Nat :=
  if !response.errors then (none, 0)
  else
    let p := collectFailed lines 0 response.items
    (if p.1.isEmpty then none else some p.1, p.2)

/-- Translation of the `while current_body and retry_count <= max_retries`
loop of `_execute_bulk_with_retry`.  Arguments after the oracle and
`max_retries`: fuel (structural), `current_body` (as lines),
`current_doc_count`, the local `retry_count`, and the metrics accumulator.
The oracle is indexed by the attempt number, which always equals the local
`retry_count`.  Fuel `max_retries + 1` is sufficient: every iteration either
breaks or increments `retry_count`, which the loop condition bounds by
`max_retries`. -/
def bulkGo (oracle : Nat → Attempt) (max_retries : Nat) :
    Nat → List String → Nat → Nat → RunnerMetrics → RunnerMetrics
  | 0, _, _, _, m => m
  | fuel + 1, body, pending, rc, m =>
    if body = [] ∨ max_retries < rc then m
    else
      match oracle rc with
      | .resp r e =>
        let m1 := { m with latencies := m.latencies ++ [e],
                           request_count := m.request_count + 1,
                           total_docs := m.total_docs + (pending : Int) }
        if r.errors then
          let fd := extract_failed_docs body r
          let m2 := { m1 with success_count :=
                        m1.success_count + ((pending : Int) - (fd.2 : Int)) }
          match fd.1 with
          | some fbody =>
            if rc < max_retries then
              bulkGo oracle max_retries fuel fbody fd.2 (rc + 1)
                { m2 with retry_count := m2.retry_count + 1 }
            else { m2 with fail_count := m2.fail_count + (fd.2 : Int) }
          | none => { m2 with fail_count := m2.fail_count + (fd.2 : Int) }
        else { m1 with success_count := m1.success_count + (pending : Int) }
      | .exc s e =>
        let m1 := { m with latencies := m.latencies ++ [e],
                           request_count := m.request_count + 1,
                           errors := m.errors ++ [s] }
        if rc < max_retries then
          bulkGo oracle max_retries fuel body pending (rc + 1)
            { m1 with retry_count := m1.retry_count + 1 }
        else { m1 with fail_count := m1.fail_count + (pending : Int) }

/-- Translation of `_execute_bulk_with_retry` of `locust_runner.py`: enters
the retry loop with the unit body, its document count and `retry_count = 0`. -/
def execute_bulk_with_retry (oracle : Nat → Attempt) (bulk_body : List String)
    (doc_count max_retries : Nat) (metrics : RunnerMetrics) : RunnerMetrics :=
  bulkGo oracle max_retries (max_retries + 1) bulk_body doc_count 0 metrics

/-- Translation of `_execute_search` of `locust_runner.py`: a single request,
no retry; an `OpenSearchException` is caught at the call boundary and turned
into failure accounting, with `None` returned. -/
def execute_search (a : Attempt) (m : RunnerMetrics) :
    RunnerMetrics × Option BulkResponse :=
  match a with
  | .resp r e =>
    ({ m with latencies := m.latencies ++ [e],
              request_count := m.request_count + 1,
              total_docs := m.total_docs + 1,
              success_count := m.success_count + 1 }, some r)
  | .exc s e =>
    ({ m with latencies := m.latencies ++ [e],
              request_count := m.request_count + 1,
              errors := m.errors ++ [s],
              fail_count := m.fail_count + 1,
              total_docs := m.total_docs + 1 }, none)

/-- Dispatch on the worker tag, as in the body of the `while` loop of
`_worker_process`: tag `ingest` runs the retry loop, tag `search` runs a
single search (its returned response is discarded by the loop), any other tag
processes nothing. -/
def processOne (tag : String) (oracle : Nat → Attempt) (max_retries : Nat)
    (p : Payload) (m : RunnerMetrics) : RunnerMetrics :=
  if tag = "ingest" then
    execute_bulk_with_retry oracle p.body p.doc_count max_retries m
  else if tag = "search" then (execute_search (oracle 0) m).1
  else m

/-- State of one worker in the `while not stop_signal.value` loop of
`_worker_process`: the work it can still dequeue, its local accumulator, the
number of units it has dispatched so far (used to index the environment
oracle), and whether the loop has exited. -/
structure WorkerState where
  queue : List Payload
  metrics : RunnerMetrics
  unitsDone : Nat
  exited : Bool
deriving DecidableEq

/-- Translation of the `while not stop_signal.value` loop of
`_worker_process`.  `stop` gives the value of the shared stop flag at each
check (the loop re-reads it once per iteration; `iter` counts iterations);
`env` gives, per dispatched unit, the oracle answering that unit's requests.
An iteration first checks the stop flag and exits if it is set; otherwise it
dequeues (an empty queue is the `Empty` branch: sleep, then re-check) and
dispatches on the tag.  Fuel makes the loop total; every claim supplies
enough fuel for the scenario it describes. -/
def worker_loop (stop : Nat → Bool) (tag : String) (env : Nat → Nat → Attempt)
    (max_retries : Nat) : Nat → Nat → WorkerState → WorkerState
  | 0, _, st => st
  | fuel + 1, iter, st =>
    if stop iter then { st with exited := true }
    else
      match st.queue with
      | [] => worker_loop stop tag env max_retries fuel (iter + 1) st
      | p :: rest =>
        worker_loop stop tag env max_retries fuel (iter + 1)
          { st with queue := rest,
                    metrics := processOne tag (env st.unitsDone) max_retries p st.metrics,
                    unitsDone := st.unitsDone + 1 }

/-- Sequential processing of a list of units by one worker, starting at unit
index `k`: the cumulative effect of the dispatch branch of the worker loop on
the units it dequeues, in order. -/
def processUnits (tag : String) (env : Nat → Nat → Attempt) (max_retries : Nat) :
    List Payload → Nat → RunnerMetrics → RunnerMetrics
  | [], _, m => m
  | p :: rest, k, m =>
    processUnits tag env max_retries rest (k + 1) (processOne tag (env k) max_retries p m)

/-- Minimum of a nonempty latency list, 0 for the empty list: Python
`min(latencies)` (the source only applies it to nonempty lists). -/
def listMin : List ℚ → ℚ
  | [] => 0
  | x :: xs => xs.foldl min x

/-- Maximum of a nonempty latency list, 0 for the empty list: Python
`max(latencies)` (the source only applies it to nonempty lists). -/
def listMax : List ℚ → ℚ
  | [] => 0
  | x :: xs => xs.foldl max x

/-- Mirror of the dict returned by `RunnerMetrics.to_dict`. -/
structure RunnerDict where
  runner_id : Nat
  success_count : Int
  fail_count : Int
  retry_count : Int
  request_count : Int
  total_docs : Int
  duration_sec : ℚ
  throughput : ℚ
  avg_latency_ms : ℚ
  min_latency_ms : ℚ
  max_latency_ms : ℚ
  p50_latency_ms : ℚ
  p95_latency_ms : ℚ
  p99_latency_ms : ℚ
  error_count : Nat
deriving DecidableEq

/-- Translation of `RunnerMetrics.to_dict` of `locust_runner.py`.  Python
`sorted` is modelled by `List.insertionSort` (any correct sort; ordering is
all the source relies on).  The float index expressions
`int(len(latencies) * 0.5)`, `int(... * 0.95)`, `int(... * 0.99)` are modelled
as the exact rational floors `n * 50 / 100`, `n * 95 / 100`, `n * 99 / 100`
in `Nat` division; for every feasible sample size the binary64 computation of
the source truncates to the same index. -/
def RunnerMetrics.to_dict (m : RunnerMetrics) : RunnerDict :=
  let duration : ℚ := if m.start_time < m.end_time then m.end_time - m.start_time else 0
  let lats : List ℚ :=
    if m.latencies = [] then [0] else List.insertionSort (· ≤ ·) m.latencies
  let n := lats.length
  { runner_id := m.runner_id
    success_count := m.success_count
    fail_count := m.fail_count
    retry_count := m.retry_count
    request_count := m.request_count
    total_docs := m.total_docs
    duration_sec := duration
    throughput := if 0 < duration then (m.total_docs : ℚ) / duration else 0
    avg_latency_ms := lats.sum / (n : ℚ)
    min_latency_ms := listMin lats
    max_latency_ms := listMax lats
    p50_latency_ms := lats.getD (n * 50 / 100) 0
    p95_latency_ms := if 1 < n then lats.getD (n * 95 / 100) 0 else lats.getD 0 0
    p99_latency_ms := if 1 < n then lats.getD (n * 99 / 100) 0 else lats.getD 0 0
    error_count := m.errors.length }

/-- Mirror of the aggregate dict returned by `LocustRunner.collect_metrics`.
When no worker metrics are received the source returns a smaller dict holding
only `total_success`, `total_fail`, `total_docs`, `success_rate`,
`worker_count` and `per_worker`; that dict is modelled by `emptyAggregate`,
whose remaining fields stand for the absent keys and are zero. -/
structure AggregateDict where
  total_success : Int
  total_fail : Int
  total_docs : Int
  total_requests : Int
  total_retries : Int
  total_errors : Int
  success_rate : ℚ
  throughput : ℚ
  avg_latency_ms : ℚ
  p50_latency_ms : ℚ
  p95_latency_ms : ℚ
  p99_latency_ms : ℚ
  worker_count : Nat
  per_worker : List RunnerDict
deriving DecidableEq

/-- The `if not worker_metrics` early return of `collect_metrics`. -/
def emptyAggregate (num_workers : Nat) : AggregateDict :=
  { total_success := 0
    total_fail := 0
    total_docs := 0
    total_requests := 0
    total_retries := 0
    total_errors := 0
    success_rate := 0
    throughput := 0
    avg_latency_ms := 0
    p50_latency_ms := 0
    p95_latency_ms := 0
    p99_latency_ms := 0
    worker_count := num_workers
    per_worker := [] }

/-- Aggregation over a nonempty list of received worker dicts: the summing
and approximate-percentile part of `collect_metrics`. -/
def aggregateOf (worker_metrics : List RunnerDict) : AggregateDict :=
  let total_success := (worker_metrics.map (fun m => m.success_count)).sum
  let total_fail := (worker_metrics.map (fun m => m.fail_count)).sum
  let all_latencies : List ℚ :=
    worker_metrics.flatMap (fun m =>
      if 0 < m.avg_latency_ms then
        List.replicate m.request_count.toNat m.avg_latency_ms
      else [])
  let lats : List ℚ :=
    if all_latencies = [] then [0] else List.insertionSort (· ≤ ·) all_latencies
  let n := lats.length
  { total_success := total_success
    total_fail := total_fail
    total_docs := (worker_metrics.map (fun m => m.total_docs)).sum
    total_requests := (worker_metrics.map (fun m => m.request_count)).sum
    total_retries := (worker_metrics.map (fun m => m.retry_count)).sum
    total_errors := (worker_metrics.map (fun m => (m.error_count : Int))).sum
    success_rate :=
      if 0 < total_success + total_fail then
        (total_success : ℚ) / ((total_success + total_fail : Int) : ℚ)
      else 0
    throughput := (worker_metrics.map (fun m => m.throughput)).sum
    avg_latency_ms := lats.sum / (n : ℚ)
    p50_latency_ms := lats.getD (n * 50 / 100) 0
    p95_latency_ms := if 1 < n then lats.getD (n * 95 / 100) 0 else lats.getD 0 0
    p99_latency_ms := if 1 < n then lats.getD (n * 99 / 100) 0 else lats.getD 0 0
    worker_count := worker_metrics.length
    per_worker := worker_metrics }

/-- Translation of `LocustRunner.collect_metrics`.  The results channel
(`metrics_queue`) is the list of worker dicts delivered and not yet consumed,
in delivery order.  The collection loop drains it until `num_workers` dicts
are received or the deadline passes; with every available dict retrievable
well within the timeout this takes `min num_workers (length)` dicts and
leaves the rest.  The call returns the aggregate together with the channel
state it leaves behind. -/
def collect_metrics (num_workers : Nat) (metrics_queue : List RunnerDict) :
    AggregateDict × List RunnerDict :=
  let worker_metrics := metrics_queue.take num_workers
  (if worker_metrics = [] then emptyAggregate num_workers
   else aggregateOf worker_metrics,
   metrics_queue.drop num_workers)

/-- The JSON action line `json.dumps({"index": {"_index": index_name, "_id": str(doc_id)}})`
of `_create_bulk_body`; document ids are modelled as the strings `str()`
produces. -/
def actionLine (index_name doc_id : String) : String :=
  "\x7b\"index\": \x7b\"_index\": \"" ++ index_name ++ "\", \"_id\": \"" ++
    doc_id ++ "\"\x7d\x7d"

/-- Translation of `LocustManager._create_bulk_body`: two NDJSON lines per
document, an action line and a content line (the `json.dumps(doc_body)` text
is the opaque content string).  The trailing `""` appended by the source only
realises the final newline of the join and is absorbed by the
string-to-lines correspondence. -/
def create_bulk_body (index_name : String) (docs : List (String × String)) :
    List String :=
  docs.flatMap (fun d => [actionLine index_name d.1, d.2])

/-- Producer state: the units successfully enqueued so far, in order, and the
`_total_produced` counter. -/
structure ProducerState where
  emitted : List Payload
  total_produced : Int
deriving DecidableEq

/-- A successful enqueue followed by `self._total_produced += len(batch)`. -/
def pushUnit (st : ProducerState) (p : Payload) (count : Nat) : ProducerState :=
  { emitted := st.emitted ++ [p], total_produced := st.total_produced + (count : Int) }

/-- Translation of the body of `LocustManager._produce_batch`.  Arguments:
index name, `bulk_size`, the `block` flag, `full` (the value each
`self.queue.full()` call returns, indexed by the number of such calls made),
`stop` (the value of `self._stop_requested` at each check, indexed by the
number of checks made), then the remaining generator items, the accumulated
`batch`, the stop-check counter, the full-check counter and the producer
state.  A blocking `queue.put` suspends until space is available and then
succeeds (the workers drain the queue), so it is modelled as a successful
enqueue.  The trailing partial batch is sent with `queue.put(payload, block=block)`,
which with `block=False` raises `queue.Full` when the queue is full — modelled
by `Except.error "queue.Full"`. -/
def produceBatchGo (index_name : String) (bulk_size : Nat) (block : Bool)
    (full : Nat → Bool) (stop : Nat → Bool) :
    List (String × String) → List (String × String) → Nat → Nat →
    ProducerState → Except String ProducerState
  | [], batch, chk, fidx, st =>
    if batch ≠ [] ∧ stop chk = false then
      let payload : Payload :=
        { body := create_bulk_body index_name batch, doc_count := batch.length }
      if block then .ok (pushUnit st payload batch.length)
      else if full fidx then .error "queue.Full"
      else .ok (pushUnit st payload batch.length)
    else .ok st
  | d :: ds, batch, chk, fidx, st =>
    if stop chk then .ok st
    else
      let batch1 := batch ++ [d]
      if bulk_size ≤ batch1.length then
        let payload : Payload :=
          { body := create_bulk_body index_name batch1, doc_count := batch1.length }
        if block then
          produceBatchGo index_name bulk_size block full stop ds [] (chk + 1) fidx
            (pushUnit st payload batch1.length)
        else if full fidx then
          produceBatchGo index_name bulk_size block full stop ds [] (chk + 1) (fidx + 1) st
        else
          produceBatchGo index_name bulk_size block full stop ds [] (chk + 1) (fidx + 1)
            (pushUnit st payload batch1.length)
      else produceBatchGo index_name bulk_size block full stop ds batch1 (chk + 1) fidx st

/-- Translation of `LocustManager._produce_batch`, entered as `run` does with
`_total_produced` reset to 0 and an empty accumulated batch. -/
def produce_batch (index_name : String) (bulk_size : Nat) (block : Bool)
    (full : Nat → Bool) (stop : Nat → Bool) (docs : List (String × String)) :
    Except String ProducerState :=
  produceBatchGo index_name bulk_size block full stop docs [] 0 0 ⟨[], 0⟩

/-- Translation of the body of `LocustManager._produce_single`: every item
becomes its own unit, enqueued with the always-blocking `self.queue.put(payload)`;
the `block` parameter is accepted but never consulted. -/
def produceSingleGo (block : Bool) (stop : Nat → Bool) :
    List (String × String) → Nat → ProducerState → ProducerState
  | [], _, st => st
  | d :: ds, chk, st =>
    if stop chk then st
    else
      produceSingleGo block stop ds (chk + 1)
        (pushUnit st { body := [d.2], doc_count := 1, doc_id := some d.1 } 1)

/-- Translation of `LocustManager._produce_single`, entered as `run` does with
`_total_produced` reset to 0. -/
def produce_single (block : Bool) (stop : Nat → Bool)
    (docs : List (String × String)) : ProducerState :=
  produceSingleGo block stop docs 0 ⟨[], 0⟩

/-- Mirror of `RunnerType` of `benchmark/workload/tasks/runner_type.py`. -/
inductive RunnerType where
  | INGEST
  | SEARCH
  | SEARCH_WITH_RECALL
  | UNKNOWN
deriving DecidableEq

/-- Translation of `LocustManager.produce`: dispatch on the runner type; any
runner type other than `INGEST`, `SEARCH` and `SEARCH_WITH_RECALL` only prints
a message, enqueues nothing and raises nothing. -/
def produce (runner_type : RunnerType) (index_name : String) (bulk_size : Nat)
    (block : Bool) (full : Nat → Bool) (stop : Nat → Bool)
    (docs : List (String × String)) : Except String ProducerState :=
  if runner_type = RunnerType.INGEST then
    produce_batch index_name bulk_size block full stop docs
  else if runner_type = RunnerType.SEARCH ∨ runner_type = RunnerType.SEARCH_WITH_RECALL then
    .ok (produce_single block stop docs)
  else .ok ⟨[], 0⟩

/-- Ghost function for the proofs: the number of requests the retry loop
issues, mirroring the recursion of `bulkGo` (one request per iteration). -/
def bulkAttempts (oracle : Nat → Attempt) (max_retries : Nat) :
    Nat → List String → Nat → Nat → Nat
  | 0, _, _, _ => 0
  | fuel + 1, body, pending, rc =>
    if body = [] ∨ max_retries < rc then 0
    else
      match oracle rc with
      | .resp r _ =>
        if r.errors then
          match (extract_failed_docs body r).1 with
          | some fbody =>
            if rc < max_retries then
              1 + bulkAttempts oracle max_retries fuel fbody
                (extract_failed_docs body r).2 (rc + 1)
            else 1
          | none => 1
        else 1
      | .exc _ _ =>
        if rc < max_retries then
          1 + bulkAttempts oracle max_retries fuel body pending (rc + 1)
        else 1

/-- The attempt is a raised `OpenSearchException` (the `except` branch). -/
def isExcA : Attempt → Prop
  | .resp _ _ => False
  | .exc _ _ => True

/-- The attempt is benign: either an exception or a response with no per-item
errors. -/
def benignA : Attempt → Prop
  | .resp r _ => r.errors = false
  | .exc _ _ => True

/-- An oracle for one unit describing a run in which every response reports
no per-item errors and at least one attempt within the retry budget returns a
response rather than raising. -/
def GoodOracle (o : Nat → Attempt) (max_retries : Nat) : Prop :=
  (∀ i, benignA (o i)) ∧ ∃ k, k ≤ max_retries ∧ ¬ isExcA (o k)

/-- Sum of the document counts of a list of queued units. -/
def sumDocCounts (l : List Payload) : Int :=
  (l.map fun p => (p.doc_count : Int)).sum

/-! ## Helper lemmas about the retry loop -/

/-- A batch body built from a nonempty batch is a nonempty line list. -/
theorem create_bulk_body_ne_nil (index_name : String) (docs : List (String × String))
    (h : docs ≠ []) : create_bulk_body index_name docs ≠ [] := by
  cases docs with
  | nil => exact absurd rfl h
  | cons d ds => simp [create_bulk_body]

/-- A retry sub-batch returned by `_extract_failed_docs` is never the empty
line list (Python returns either `None` or a nonempty string). -/
theorem extract_failed_docs_some_ne_nil (lines : List String) (r : BulkResponse)
    (fb : List String) (h : (extract_failed_docs lines r).1 = some fb) : fb ≠ [] := by
  by_cases he : r.errors
  · simp [extract_failed_docs, he] at h
    obtain ⟨hne, rfl⟩ := h
    exact hne
  · simp [extract_failed_docs, he] at h

/-- Conservation inside the retry loop: however the oracle answers, the
successes and failures recorded across all attempts for one unit add up to
the pending count the loop entered with. -/
theorem bulkGo_success_fail_sum (oracle : Nat → Attempt) (max_retries : Nat) :
    ∀ (fuel : Nat) (body : List String) (pending rc : Nat) (m : RunnerMetrics),
      body ≠ [] → rc ≤ max_retries → max_retries + 1 ≤ fuel + rc →
      (bulkGo oracle max_retries fuel body pending rc m).success_count
        + (bulkGo oracle max_retries fuel body pending rc m).fail_count
        = m.success_count + m.fail_count + (pending : Int) := by
  intro fuel
  induction fuel with
  | zero => intro body pending rc m _ hrc hf; omega
  | succ fuel ih =>
    intro body pending rc m hb hrc hf
    simp only [bulkGo]
    rw [if_neg (by push_neg; exact ⟨hb, by omega⟩)]
    cases ho : oracle rc with
    | resp r e =>
      by_cases herr : r.errors
      · cases hfd : (extract_failed_docs body r).1 with
        | some fbody =>
          by_cases hlt : rc < max_retries
          · simp only [herr, hfd, hlt, if_true]
            rw [ih fbody (extract_failed_docs body r).2 (rc + 1) _
              (extract_failed_docs_some_ne_nil body r fbody hfd) (by omega) (by omega)]
            simp
            ring
          · simp only [herr, hfd, hlt, if_false]
            simp
            ring
        | none =>
          simp only [herr, hfd]
          simp
          ring
      · simp [herr]
        ring
    | exc s e =>
      by_cases hlt : rc < max_retries
      · simp only [hlt, if_true]
        rw [ih body pending (rc + 1) _ hb (by omega) (by omega)]
      · simp [hlt]
        ring


/-- The retry loop runs at least one and at most `max_retries + 1 - rc`
iterations, each making exactly one request. -/
theorem bulkAttempts_bounds (oracle : Nat → Attempt) (max_retries : Nat) :
    ∀ (fuel : Nat) (body : List String) (pending rc : Nat),
      body ≠ [] → rc ≤ max_retries → max_retries + 1 ≤ fuel + rc →
      1 ≤ bulkAttempts oracle max_retries fuel body pending rc
        ∧ bulkAttempts oracle max_retries fuel body pending rc + rc ≤ max_retries + 1 := by
  intro fuel
  induction fuel with
  | zero => intro body pending rc _ hrc hf; omega
  | succ fuel ih =>
    intro body pending rc hb hrc hf
    simp only [bulkAttempts]
    rw [if_neg (by push_neg; exact ⟨hb, by omega⟩)]
    cases ho : oracle rc with
    | resp r e =>
      by_cases herr : r.errors
      · cases hfd : (extract_failed_docs body r).1 with
        | some fbody =>
          by_cases hlt : rc < max_retries
          · simp only [herr, hfd, hlt, if_true]
            have := ih fbody (extract_failed_docs body r).2 (rc + 1)
              (extract_failed_docs_some_ne_nil body r fbody hfd) (by omega) (by omega)
            omega
          · simp only [herr, hfd, hlt, if_false, if_true]
            omega
        | none =>
          simp only [herr, hfd, if_true]
          omega
      · simp [herr]
        omega
    | exc s e =>
      by_cases hlt : rc < max_retries
      · simp only [hlt, if_true]
        have := ih body pending (rc + 1) hb (by omega) (by omega)
        omega
      · simp [hlt]
        omega

/-- Each iteration of the retry loop makes exactly one request:
`request_count` grows by the number of attempts. -/
theorem bulkGo_request_count (oracle : Nat → Attempt) (max_retries : Nat) :
    ∀ (fuel : Nat) (body : List String) (pending rc : Nat) (m : RunnerMetrics),
      (bulkGo oracle max_retries fuel body pending rc m).request_count
        = m.request_count
          + (bulkAttempts oracle max_retries fuel body pending rc : Int) := by
  intro fuel
  induction fuel with
  | zero => intro body pending rc m; simp [bulkGo, bulkAttempts]
  | succ fuel ih =>
    intro body pending rc m
    simp only [bulkGo, bulkAttempts]
    by_cases hc : body = [] ∨ max_retries < rc
    · rw [if_pos hc, if_pos hc]
      simp
    · rw [if_neg hc, if_neg hc]
      cases ho : oracle rc with
      | resp r e =>
        by_cases herr : r.errors
        · cases hfd : (extract_failed_docs body r).1 with
          | some fbody =>
            by_cases hlt : rc < max_retries
            · simp only [herr, hfd, hlt, if_true]
              rw [ih]
              simp
              ring
            · simp only [herr, hfd, hlt, if_false]
              simp
          | none =>
            simp only [herr, hfd]
            simp
        · simp [herr]
      | exc s e =>
        by_cases hlt : rc < max_retries
        · simp only [hlt, if_true]
          rw [ih]
          simp
          ring
        · simp [hlt]

/-- Each retry (every iteration except the last) increments `retry_count`
once: across one unit it grows by the number of attempts minus one. -/
theorem bulkGo_retry_count (oracle : Nat → Attempt) (max_retries : Nat) :
    ∀ (fuel : Nat) (body : List String) (pending rc : Nat) (m : RunnerMetrics),
      body ≠ [] → rc ≤ max_retries → max_retries + 1 ≤ fuel + rc →
      (bulkGo oracle max_retries fuel body pending rc m).retry_count
        = m.retry_count
          + (bulkAttempts oracle max_retries fuel body pending rc : Int) - 1 := by
  intro fuel
  induction fuel with
  | zero => intro body pending rc m _ hrc hf; omega
  | succ fuel ih =>
    intro body pending rc m hb hrc hf
    simp only [bulkGo, bulkAttempts]
    rw [if_neg (by push_neg; exact ⟨hb, by omega⟩),
        if_neg (by push_neg; exact ⟨hb, by omega⟩)]
    cases ho : oracle rc with
    | resp r e =>
      by_cases herr : r.errors
      · cases hfd : (extract_failed_docs body r).1 with
        | some fbody =>
          by_cases hlt : rc < max_retries
          · simp only [herr, hfd, hlt, if_true]
            rw [ih fbody (extract_failed_docs body r).2 (rc + 1) _
              (extract_failed_docs_some_ne_nil body r fbody hfd) (by omega) (by omega)]
            simp
            ring
          · simp only [herr, hfd, hlt, if_false]
            simp
        | none =>
          simp only [herr, hfd]
          simp
      · simp [herr]
    | exc s e =>
      by_cases hlt : rc < max_retries
      · simp only [hlt, if_true]
        rw [ih body pending (rc + 1) _ hb (by omega) (by omega)]
        simp
        ring
      · simp [hlt]



/-- Under an oracle that always raises, the retry loop ends by marking the
whole pending sub-batch failed. -/
theorem bulkGo_all_exc_fail (oracle : Nat → Attempt) (max_retries : Nat)
    (hexc : ∀ i, isExcA (oracle i)) :
    ∀ (fuel : Nat) (body : List String) (pending rc : Nat) (m : RunnerMetrics),
      body ≠ [] → rc ≤ max_retries → max_retries + 1 ≤ fuel + rc →
      (bulkGo oracle max_retries fuel body pending rc m).fail_count
        = m.fail_count + (pending : Int) := by
  intro fuel
  induction fuel with
  | zero => intro body pending rc m _ hrc hf; omega
  | succ fuel ih =>
    intro body pending rc m hb hrc hf
    simp only [bulkGo]
    rw [if_neg (by push_neg; exact ⟨hb, by omega⟩)]
    cases ho : oracle rc with
    | resp r e =>
      have hx := hexc rc
      rw [ho] at hx
      exact hx.elim
    | exc s e =>
      by_cases hlt : rc < max_retries
      · simp only [hlt, if_true]
        rw [ih body pending (rc + 1) _ hb (by omega) (by omega)]
      · simp [hlt]

/-- The retry loop appends one error message per exception attempt; under an
oracle that always raises, the number of appended messages is the number of
attempts. -/
theorem bulkGo_all_exc_errors (oracle : Nat → Attempt) (max_retries : Nat)
    (hexc : ∀ i, isExcA (oracle i)) :
    ∀ (fuel : Nat) (body : List String) (pending rc : Nat) (m : RunnerMetrics),
      (bulkGo oracle max_retries fuel body pending rc m).errors.length
        = m.errors.length + bulkAttempts oracle max_retries fuel body pending rc := by
  intro fuel
  induction fuel with
  | zero => intro body pending rc m; simp [bulkGo, bulkAttempts]
  | succ fuel ih =>
    intro body pending rc m
    simp only [bulkGo, bulkAttempts]
    by_cases hc : body = [] ∨ max_retries < rc
    · rw [if_pos hc, if_pos hc]
      simp
    · rw [if_neg hc, if_neg hc]
      cases ho : oracle rc with
      | resp r e =>
        have hx := hexc rc
        rw [ho] at hx
        exact hx.elim
      | exc s e =>
        by_cases hlt : rc < max_retries
        · simp only [hlt, if_true]
          rw [ih]
          simp
          omega
        · simp [hlt]

/-- Under an oracle that always raises, the loop uses its full retry budget:
exactly `max_retries + 1 - rc` attempts. -/
theorem bulkAttempts_all_exc (oracle : Nat → Attempt) (max_retries : Nat)
    (hexc : ∀ i, isExcA (oracle i)) :
    ∀ (fuel : Nat) (body : List String) (pending rc : Nat),
      body ≠ [] → rc ≤ max_retries → max_retries + 1 ≤ fuel + rc →
      bulkAttempts oracle max_retries fuel body pending rc + rc = max_retries + 1 := by
  intro fuel
  induction fuel with
  | zero => intro body pending rc _ hrc hf; omega
  | succ fuel ih =>
    intro body pending rc hb hrc hf
    simp only [bulkAttempts]
    rw [if_neg (by push_neg; exact ⟨hb, by omega⟩)]
    cases ho : oracle rc with
    | resp r e =>
      have hx := hexc rc
      rw [ho] at hx
      exact hx.elim
    | exc s e =>
      by_cases hlt : rc < max_retries
      · simp only [hlt, if_true]
        have := ih body pending (rc + 1) hb (by omega) (by omega)
        omega
      · simp [hlt]
        omega

/-- Under a benign oracle that eventually answers with a response inside the
retry budget, the retry loop adds the unit's document count to `total_docs`
exactly once (exception attempts do not touch `total_docs`, and the first
response carries no per-item errors, so the loop stops there). -/
theorem bulkGo_total_docs_good (oracle : Nat → Attempt) (max_retries : Nat)
    (hben : ∀ i, benignA (oracle i)) :
    ∀ (fuel : Nat) (body : List String) (pending rc : Nat) (m : RunnerMetrics),
      body ≠ [] → rc ≤ max_retries → max_retries + 1 ≤ fuel + rc →
      (∃ k, rc ≤ k ∧ k ≤ max_retries ∧ ¬ isExcA (oracle k)) →
      (bulkGo oracle max_retries fuel body pending rc m).total_docs
        = m.total_docs + (pending : Int) := by
  intro fuel
  induction fuel with
  | zero => intro body pending rc m _ hrc hf _; omega
  | succ fuel ih =>
    intro body pending rc m hb hrc hf hex
    simp only [bulkGo]
    rw [if_neg (by push_neg; exact ⟨hb, by omega⟩)]
    cases ho : oracle rc with
    | resp r e =>
      have hx := hben rc
      rw [ho] at hx
      simp only [benignA] at hx
      simp [hx]
    | exc s e =>
      obtain ⟨k, hk1, hk2, hk3⟩ := hex
      have hne : rc ≠ k := by
        intro h
        rw [← h, ho] at hk3
        simp [isExcA] at hk3
      have hlt : rc < max_retries := by omega
      simp only [hlt, if_true]
      rw [ih body pending (rc + 1) _ hb (by omega) (by omega) ⟨k, by omega, hk2, hk3⟩]

/-- In a graceful run the stop flag is observed unset until the worker's
units are all dequeued and set from then on: the worker loop then drains its
queue, processing each unit in order, and exits. -/
theorem worker_loop_drain (stop : Nat → Bool) (tag : String)
    (env : Nat → Nat → Attempt) (max_retries : Nat) :
    ∀ (q : List Payload) (fuel iter k : Nat) (m : RunnerMetrics),
      (∀ j, j < q.length → stop (iter + j) = false) →
      stop (iter + q.length) = true →
      q.length < fuel →
      worker_loop stop tag env max_retries fuel iter ⟨q, m, k, false⟩
        = ⟨[], processUnits tag env max_retries q k m, k + q.length, true⟩ := by
  intro q
  induction q with
  | nil =>
    intro fuel iter k m _ htrue hfuel
    cases fuel with
    | zero => simp at hfuel
    | succ fuel =>
      simp only [worker_loop]
      rw [if_pos (by simpa using htrue)]
      simp [processUnits]
  | cons p rest ih =>
    intro fuel iter k m hfalse htrue hfuel
    cases fuel with
    | zero => simp at hfuel
    | succ fuel =>
      simp only [worker_loop]
      rw [if_neg (by simpa using hfalse 0 (by simp))]
      have harr : iter + 1 + rest.length = iter + (rest.length + 1) := by omega
      rw [ih fuel (iter + 1) (k + 1) _
        (by
          intro j hj
          have h := hfalse (j + 1) (by simpa using Nat.succ_lt_succ hj)
          have : iter + 1 + j = iter + (j + 1) := by omega
          rw [this]
          exact h)
        (by rw [harr]; simpa using htrue)
        (by simp at hfuel; omega)]
      simp [processUnits]
      omega



/-- A worker that processes a list of nonempty-bodied units under good
oracles adds exactly the units' summed document counts to `total_docs`. -/
theorem processUnits_total_docs (env : Nat → Nat → Attempt) (max_retries : Nat) :
    ∀ (us : List Payload) (k : Nat) (m : RunnerMetrics),
      (∀ j, GoodOracle (env j) max_retries) →
      (∀ p ∈ us, p.body ≠ []) →
      (processUnits "ingest" env max_retries us k m).total_docs
        = m.total_docs + sumDocCounts us := by
  intro us
  induction us with
  | nil => intro k m _ _; simp [processUnits, sumDocCounts]
  | cons p rest ih =>
    intro k m hgood hbody
    simp only [processUnits]
    rw [ih (k + 1) _ hgood (fun q hq => hbody q (List.mem_cons_of_mem p hq))]
    have hpb : p.body ≠ [] := hbody p (List.mem_cons_self p rest)
    obtain ⟨hben, kk, hkk, hkr⟩ := hgood k
    have hone : (processOne "ingest" (env k) max_retries p m).total_docs
        = m.total_docs + (p.doc_count : Int) := by
      simp only [processOne, if_pos rfl, execute_bulk_with_retry]
      exact bulkGo_total_docs_good (env k) max_retries hben (max_retries + 1)
        p.body p.doc_count 0 m hpb (by omega) (by omega) ⟨kk, by omega, hkk, hkr⟩
    rw [hone]
    simp [sumDocCounts]
    ring

/-- Blocking production: with `block=True` and no cancellation, every
generator item is enqueued in some unit and counted in `_total_produced`;
every emitted unit has a nonempty body. -/
theorem produceBatchGo_blocking (index_name : String) (bulk_size : Nat)
    (full : Nat → Bool) :
    ∀ (docs batch : List (String × String)) (chk fidx : Nat) (st : ProducerState),
      ∃ st1,
        produceBatchGo index_name bulk_size true full (fun _ => false)
            docs batch chk fidx st = .ok st1
        ∧ st1.total_produced
            = st.total_produced + (docs.length : Int) + (batch.length : Int)
        ∧ sumDocCounts st1.emitted
            = sumDocCounts st.emitted + (docs.length : Int) + (batch.length : Int)
        ∧ ∀ p ∈ st1.emitted, p ∈ st.emitted ∨ p.body ≠ [] := by
  intro docs
  induction docs with
  | nil =>
    intro batch chk fidx st
    by_cases hbat : batch = []
    · refine ⟨st, ?_, by simp [hbat], by simp [hbat], fun p hp => Or.inl hp⟩
      simp [produceBatchGo, hbat]
    · refine ⟨pushUnit st
        { body := create_bulk_body index_name batch, doc_count := batch.length }
        batch.length, ?_, by simp [pushUnit], ?_, ?_⟩
      · simp [produceBatchGo, hbat]
      · simp [pushUnit, sumDocCounts]
      · intro p hp
        simp only [pushUnit, List.mem_append, List.mem_singleton] at hp
        rcases hp with hp | hp
        · exact Or.inl hp
        · subst hp
          exact Or.inr (create_bulk_body_ne_nil index_name batch hbat)
  | cons d ds ih =>
    intro batch chk fidx st
    simp only [produceBatchGo]
    rw [if_neg (by simp)]
    by_cases hflush : bulk_size ≤ (batch ++ [d]).length
    · rw [if_pos hflush]
      simp only [if_true]
      obtain ⟨st1, h1, h2, h3, h4⟩ := ih [] (chk + 1) fidx
        (pushUnit st
          { body := create_bulk_body index_name (batch ++ [d]),
            doc_count := (batch ++ [d]).length }
          (batch ++ [d]).length)
      refine ⟨st1, h1, ?_, ?_, ?_⟩
      · rw [h2]
        simp [pushUnit]
        ring
      · rw [h3]
        simp [pushUnit, sumDocCounts]
        ring
      · intro p hp
        rcases h4 p hp with hp1 | hp1
        · simp only [pushUnit, List.mem_append, List.mem_singleton] at hp1
          rcases hp1 with hp2 | hp2
          · exact Or.inl hp2
          · subst hp2
            exact Or.inr (create_bulk_body_ne_nil index_name (batch ++ [d]) (by simp))
        · exact Or.inr hp1
    · rw [if_neg hflush]
      obtain ⟨st1, h1, h2, h3, h4⟩ := ih (batch ++ [d]) (chk + 1) fidx st
      refine ⟨st1, h1, ?_, ?_, h4⟩
      · rw [h2]
        simp
        ring
      · rw [h3]
        simp
        ring

/-- Appending one unit to the emitted list adds its document count to the
emitted sum. -/
theorem sumDocCounts_append_single (l : List Payload) (p : Payload) :
    sumDocCounts (l ++ [p]) = sumDocCounts l + (p.doc_count : Int) := by
  simp [sumDocCounts]

/-- Conservation of the produced count, in every batching configuration:
whenever `_produce_batch` returns normally, `_total_produced` counts exactly
the documents of the units actually enqueued — a dropped unit is never
counted. -/
theorem produceBatchGo_conserves (index_name : String) (bulk_size : Nat)
    (block : Bool) (full : Nat → Bool) (stop : Nat → Bool) :
    ∀ (docs batch : List (String × String)) (chk fidx : Nat) (st st1 : ProducerState),
      produceBatchGo index_name bulk_size block full stop docs batch chk fidx st
        = .ok st1 →
      st1.total_produced - sumDocCounts st1.emitted
        = st.total_produced - sumDocCounts st.emitted := by
  intro docs
  induction docs with
  | nil =>
    intro batch chk fidx st st1 h
    simp only [produceBatchGo] at h
    split at h
    · split at h
      · simp only [Except.ok.injEq] at h
        subst h
        simp [pushUnit, sumDocCounts_append_single]
      · split at h
        · exact absurd h (by simp)
        · simp only [Except.ok.injEq] at h
          subst h
          simp [pushUnit, sumDocCounts_append_single]
    · simp only [Except.ok.injEq] at h
      subst h
      rfl
  | cons d ds ih =>
    intro batch chk fidx st st1 h
    simp only [produceBatchGo] at h
    split at h
    · simp only [Except.ok.injEq] at h
      subst h
      rfl
    · split at h
      · split at h
        · rw [ih _ _ _ _ _ h]
          simp [pushUnit, sumDocCounts_append_single]
        · split at h
          · exact ih _ _ _ _ _ h
          · rw [ih _ _ _ _ _ h]
            simp [pushUnit, sumDocCounts_append_single]
      · exact ih _ _ _ _ _ h

/-- With a full queue, `block=False`, and fewer remaining documents than the
batch size, the main loop never flushes and the trailing partial batch's
`queue.put(payload, block=False)` raises `queue.Full`. -/
theorem produceBatchGo_trailing_full (index_name : String) (bulk_size : Nat) :
    ∀ (docs batch : List (String × String)) (chk fidx : Nat) (st : ProducerState),
      0 < batch.length + docs.length → batch.length + docs.length < bulk_size →
      produceBatchGo index_name bulk_size false (fun _ => true) (fun _ => false)
          docs batch chk fidx st
        = .error "queue.Full" := by
  intro docs
  induction docs with
  | nil =>
    intro batch chk fidx st hpos hlt
    have hbat : batch ≠ [] := by
      intro hb
      rw [hb] at hpos
      simp at hpos
    simp [produceBatchGo, hbat]
  | cons d ds ih =>
    intro batch chk fidx st hpos hlt
    simp only [produceBatchGo]
    rw [if_neg (by simp : ¬ ((fun _ => false) chk = true))]
    rw [if_neg (by simp at hlt ⊢; omega : ¬ bulk_size ≤ (batch ++ [d]).length)]
    exact ih (batch ++ [d]) (chk + 1) fidx st (by simp) (by simp at hlt ⊢; omega)

/-- Single-mode production with no cancellation: every item is enqueued
(blocking) and counted, whatever the `block` flag says. -/
theorem produceSingleGo_total (block : Bool) :
    ∀ (docs : List (String × String)) (chk : Nat) (st : ProducerState),
      (produceSingleGo block (fun _ => false) docs chk st).total_produced
          = st.total_produced + (docs.length : Int)
        ∧ ((produceSingleGo block (fun _ => false) docs chk st).emitted).length
          = st.emitted.length + docs.length := by
  intro docs
  induction docs with
  | nil => intro chk st; simp [produceSingleGo]
  | cons d ds ih =>
    intro chk st
    simp only [produceSingleGo]
    rw [if_neg (by simp : ¬ ((fun _ => false) chk = true))]
    obtain ⟨h1, h2⟩ := ih (chk + 1)
      (pushUnit st { body := [d.2], doc_count := 1, doc_id := some d.1 } 1)
    refine ⟨?_, ?_⟩
    · rw [h1]
      simp [pushUnit]
      ring
    · rw [h2]
      simp [pushUnit]
      omega

/-- Characterisation of the `enumerate` scan of `_extract_failed_docs`: when
every error-marked item's line pair lies inside the body, the scan collects
exactly the action and content line of each failed item, by index, and counts
exactly the error-marked items. -/
theorem collectFailed_spec (lines : List String) :
    ∀ (items : List BulkItem) (i : Nat),
      (∀ j, j < items.length → (i + j) * 2 + 1 < lines.length) →
      collectFailed lines i items
        = (((List.enumFrom i items).filter fun q => q.2.error).flatMap
            (fun q => [lines.getD (q.1 * 2) "", lines.getD (q.1 * 2 + 1) ""]),
           items.countP fun it => it.error) := by
  intro items
  induction items with
  | nil => intro i _; simp [collectFailed, List.enumFrom]
  | cons it rest ih =>
    intro i hrange
    have hi : i * 2 + 1 < lines.length := by
      have := hrange 0 (by simp)
      simpa using this
    have hrest : ∀ j, j < rest.length → (i + 1 + j) * 2 + 1 < lines.length := by
      intro j hj
      have := hrange (j + 1) (by simp; omega)
      have harr : i + (j + 1) = i + 1 + j := by omega
      rw [harr] at this
      exact this
    simp only [collectFailed, ih (i + 1) hrest]
    by_cases herr : it.error
    · simp [herr, hi, List.enumFrom, List.countP_cons]
    · simp [herr, List.enumFrom, List.countP_cons]

/-- The percentile position `index = floor(n * p / 100)` stays inside a
nonempty sample for every percentile below 100. -/
theorem pct_index_lt (n p : Nat) (hn : 1 ≤ n) (hp : p < 100) : n * p / 100 < n := by
  rw [Nat.div_lt_iff_lt_mul (by norm_num)]
  exact mul_lt_mul_of_pos_left hp (by omega)

/-- Reading a sorted list at a smaller index gives a smaller-or-equal value. -/
theorem sorted_getD_le (l : List ℚ) (hs : l.Sorted (· ≤ ·)) (i j : Nat)
    (hij : i ≤ j) (hj : j < l.length) : l.getD i 0 ≤ l.getD j 0 := by
  rw [List.getD_eq_getElem l 0 (lt_of_le_of_lt hij hj), List.getD_eq_getElem l 0 hj]
  have := List.Sorted.rel_get_of_le hs
    (a := ⟨i, lt_of_le_of_lt hij hj⟩) (b := ⟨j, hj⟩) (Fin.mk_le_mk.mpr hij)
  simpa using this

/-- C2: for every batch WorkUnit of `unit_count` documents fully processed by
the write-path retry loop, the total increase of `success_count` plus the
total increase of `fail_count` over all attempts for that unit equals
`unit_count`, for every sequence of responses and transport exceptions. -/
theorem c2_success_fail_conservation (oracle : Nat → Attempt)
    (index_name : String) (batch : List (String × String)) (max_retries : Nat)
    (m : RunnerMetrics) (h : batch ≠ []) :
    (execute_bulk_with_retry oracle (create_bulk_body index_name batch)
        batch.length max_retries m).success_count
      + (execute_bulk_with_retry oracle (create_bulk_body index_name batch)
        batch.length max_retries m).fail_count
      = m.success_count + m.fail_count + (batch.length : Int) := by
  unfold execute_bulk_with_retry
  exact bulkGo_success_fail_sum oracle max_retries (max_retries + 1) _
    batch.length 0 m (create_bulk_body_ne_nil index_name batch h) (by omega) (by omega)

/-- Witness for C2 at a concrete input: one document, first attempt reports a
per-item error, second attempt raises, third succeeds; the recorded successes
and failures still sum to the unit count. -/
theorem c2_success_fail_conservation_witness :
    ([("0", "d")] : List (String × String)) ≠ []
    ∧ (execute_bulk_with_retry
          (fun i => if i = 0 then .resp ⟨true, [⟨true⟩]⟩ 1
                    else if i = 1 then .exc "boom" 1 else .resp ⟨false, [⟨false⟩]⟩ 1)
          (create_bulk_body "idx" [("0", "d")])
          ([("0", "d")] : List (String × String)).length 3 (initMetrics 0)).success_count
        + (execute_bulk_with_retry
          (fun i => if i = 0 then .resp ⟨true, [⟨true⟩]⟩ 1
                    else if i = 1 then .exc "boom" 1 else .resp ⟨false, [⟨false⟩]⟩ 1)
          (create_bulk_body "idx" [("0", "d")])
          ([("0", "d")] : List (String × String)).length 3 (initMetrics 0)).fail_count
      = (initMetrics 0).success_count + (initMetrics 0).fail_count
        + ((([("0", "d")] : List (String × String)).length : Int)) :=
  ⟨by decide,
    c2_success_fail_conservation
      (fun i => if i = 0 then .resp ⟨true, [⟨true⟩]⟩ 1
                else if i = 1 then .exc "boom" 1 else .resp ⟨false, [⟨false⟩]⟩ 1)
      "idx" [("0", "d")] 3 (initMetrics 0) (by decide)⟩

/-- C3: for every batch WorkUnit and every retry budget, the write-path retry
loop issues at most `max_retries + 1` requests for that unit, and
`retry_count` grows by exactly one per retry attempt — the number of requests
minus one — regardless of whether failures are per-item error annotations or
transport exceptions (the oracle is universally quantified over both). -/
theorem c3_retry_bound (oracle : Nat → Attempt) (index_name : String)
    (batch : List (String × String)) (max_retries : Nat) (m : RunnerMetrics)
    (h : batch ≠ []) :
    (execute_bulk_with_retry oracle (create_bulk_body index_name batch)
        batch.length max_retries m).request_count
      ≤ m.request_count + (max_retries : Int) + 1
    ∧ (execute_bulk_with_retry oracle (create_bulk_body index_name batch)
        batch.length max_retries m).retry_count + m.request_count + 1
      = m.retry_count
        + (execute_bulk_with_retry oracle (create_bulk_body index_name batch)
            batch.length max_retries m).request_count := by
  have hne := create_bulk_body_ne_nil index_name batch h
  have h1 := bulkGo_request_count oracle max_retries (max_retries + 1)
    (create_bulk_body index_name batch) batch.length 0 m
  have h2 := bulkGo_retry_count oracle max_retries (max_retries + 1)
    (create_bulk_body index_name batch) batch.length 0 m hne (by omega) (by omega)
  have h3 := bulkAttempts_bounds oracle max_retries (max_retries + 1)
    (create_bulk_body index_name batch) batch.length 0 hne (by omega) (by omega)
  unfold execute_bulk_with_retry
  rw [h1, h2]
  omega

/-- Witness for C3 at a concrete input: two documents, the first attempt
raises, the retry succeeds; two requests are made, `retry_count` grows by
one. -/
theorem c3_retry_bound_witness :
    ([("0", "a"), ("1", "b")] : List (String × String)) ≠ []
    ∧ ((execute_bulk_with_retry
          (fun i => if i = 0 then .exc "conn" 2 else .resp ⟨false, []⟩ 2)
          (create_bulk_body "idx" [("0", "a"), ("1", "b")])
          ([("0", "a"), ("1", "b")] : List (String × String)).length 3
          (initMetrics 1)).request_count
        ≤ (initMetrics 1).request_count + ((3 : Nat) : Int) + 1
      ∧ (execute_bulk_with_retry
          (fun i => if i = 0 then .exc "conn" 2 else .resp ⟨false, []⟩ 2)
          (create_bulk_body "idx" [("0", "a"), ("1", "b")])
          ([("0", "a"), ("1", "b")] : List (String × String)).length 3
          (initMetrics 1)).retry_count + (initMetrics 1).request_count + 1
        = (initMetrics 1).retry_count
          + (execute_bulk_with_retry
              (fun i => if i = 0 then .exc "conn" 2 else .resp ⟨false, []⟩ 2)
              (create_bulk_body "idx" [("0", "a"), ("1", "b")])
              ([("0", "a"), ("1", "b")] : List (String × String)).length 3
              (initMetrics 1)).request_count) :=
  ⟨by decide,
    c3_retry_bound (fun i => if i = 0 then .exc "conn" 2 else .resp ⟨false, []⟩ 2)
      "idx" [("0", "a"), ("1", "b")] 3 (initMetrics 1) (by decide)⟩

/-- C10: calling `produce` with a runner type that is none of `INGEST`,
`SEARCH`, `SEARCH_WITH_RECALL` (such as the default `UNKNOWN`) enqueues no
unit, raises no exception, and leaves `_total_produced` at its reset value. -/
theorem c10_unknown_runner_type_noop (runner_type : RunnerType)
    (index_name : String) (bulk_size : Nat) (block : Bool)
    (full stop : Nat → Bool) (docs : List (String × String))
    (h1 : runner_type ≠ RunnerType.INGEST)
    (h2 : runner_type ≠ RunnerType.SEARCH)
    (h3 : runner_type ≠ RunnerType.SEARCH_WITH_RECALL) :
    produce runner_type index_name bulk_size block full stop docs
      = .ok ⟨[], 0⟩ := by
  simp [produce, h1, h2, h3]

/-- Witness for C10 at the concrete `UNKNOWN` runner type with a nonempty
generator and a full queue. -/
theorem c10_unknown_runner_type_noop_witness :
    produce RunnerType.UNKNOWN "idx" 2 false (fun _ => true) (fun _ => false)
        [("0", "a")]
      = .ok ⟨[], 0⟩ :=
  c10_unknown_runner_type_noop RunnerType.UNKNOWN "idx" 2 false
    (fun _ => true) (fun _ => false) [("0", "a")]
    (by decide) (by decide) (by decide)

/-- C5: an `OpenSearchException` raised by the request call is caught at that
call boundary and converted into failure accounting.  For the search path an
exception adds one to `fail_count`, records the message in `errors` and
returns `None`; for the write path a unit whose every attempt raises has all
its documents counted failed, with one recorded message per attempt; and the
worker loop's iteration on a unit is a total step that proceeds to the rest
of the queue whatever the unit's oracle answers — no single failing request
terminates the loop. -/
theorem c5_exception_containment (msg : String) (e : ℚ) (m : RunnerMetrics)
    (oracle : Nat → Attempt) (index_name : String)
    (batch : List (String × String)) (max_retries : Nat)
    (stop : Nat → Bool) (tag : String) (env : Nat → Nat → Attempt)
    (fuel iter : Nat) (p : Payload) (rest : List Payload) (k : Nat) (ex : Bool)
    (hb : batch ≠ []) (hexc : ∀ i, isExcA (oracle i)) (hstop : stop iter = false) :
    ((execute_search (.exc msg e) m).1.fail_count = m.fail_count + 1
      ∧ (execute_search (.exc msg e) m).1.errors = m.errors ++ [msg]
      ∧ (execute_search (.exc msg e) m).1.success_count = m.success_count
      ∧ (execute_search (.exc msg e) m).2 = none)
    ∧ ((execute_bulk_with_retry oracle (create_bulk_body index_name batch)
          batch.length max_retries m).fail_count
        = m.fail_count + (batch.length : Int)
      ∧ (execute_bulk_with_retry oracle (create_bulk_body index_name batch)
          batch.length max_retries m).errors.length
        = m.errors.length + (max_retries + 1))
    ∧ worker_loop stop tag env max_retries (fuel + 1) iter ⟨p :: rest, m, k, ex⟩
        = worker_loop stop tag env max_retries fuel (iter + 1)
            ⟨rest, processOne tag (env k) max_retries p m, k + 1, ex⟩ := by
  have hne := create_bulk_body_ne_nil index_name batch hb
  refine ⟨by simp [execute_search], ⟨?_, ?_⟩, ?_⟩
  · unfold execute_bulk_with_retry
    exact bulkGo_all_exc_fail oracle max_retries hexc (max_retries + 1) _
      batch.length 0 m hne (by omega) (by omega)
  · unfold execute_bulk_with_retry
    rw [bulkGo_all_exc_errors oracle max_retries hexc (max_retries + 1) _
      batch.length 0 m]
    have := bulkAttempts_all_exc oracle max_retries hexc (max_retries + 1)
      (create_bulk_body index_name batch) batch.length 0 hne (by omega) (by omega)
    omega
  · simp only [worker_loop, hstop]
    rfl

/-- Witness for C5 at concrete inputs: an always-raising oracle over a
two-document unit with retry budget 1, and a worker step on a queue of two
units with the stop flag unset. -/
theorem c5_exception_containment_witness :
    (((execute_search (.exc "down" 2) (initMetrics 0)).1.fail_count
        = (initMetrics 0).fail_count + 1
      ∧ (execute_search (.exc "down" 2) (initMetrics 0)).1.errors
        = (initMetrics 0).errors ++ ["down"]
      ∧ (execute_search (.exc "down" 2) (initMetrics 0)).1.success_count
        = (initMetrics 0).success_count
      ∧ (execute_search (.exc "down" 2) (initMetrics 0)).2 = none)
    ∧ ((execute_bulk_with_retry (fun _ => .exc "down" 2)
          (create_bulk_body "idx" [("0", "a"), ("1", "b")])
          ([("0", "a"), ("1", "b")] : List (String × String)).length 1
          (initMetrics 0)).fail_count
        = (initMetrics 0).fail_count
          + ((([("0", "a"), ("1", "b")] : List (String × String)).length : Int))
      ∧ (execute_bulk_with_retry (fun _ => .exc "down" 2)
          (create_bulk_body "idx" [("0", "a"), ("1", "b")])
          ([("0", "a"), ("1", "b")] : List (String × String)).length 1
          (initMetrics 0)).errors.length
        = (initMetrics 0).errors.length + (1 + 1))
    ∧ worker_loop (fun _ => false) "ingest" (fun _ _ => .exc "down" 2) 1
          (3 + 1) 0
          ⟨⟨["l0", "l1"], 2, 0, none⟩ :: [⟨["l2", "l3"], 1, 0, none⟩],
            initMetrics 0, 0, false⟩
        = worker_loop (fun _ => false) "ingest" (fun _ _ => .exc "down" 2) 1 3
            (0 + 1)
            ⟨[⟨["l2", "l3"], 1, 0, none⟩],
              processOne "ingest" ((fun (_ _ : Nat) => Attempt.exc "down" 2) 0) 1
                ⟨["l0", "l1"], 2, 0, none⟩ (initMetrics 0), 0 + 1, false⟩) :=
  c5_exception_containment "down" 2 (initMetrics 0) (fun _ => .exc "down" 2)
    "idx" [("0", "a"), ("1", "b")] 1 (fun _ => false) "ingest"
    (fun _ _ => .exc "down" 2) 3 0 ⟨["l0", "l1"], 2, 0, none⟩
    [⟨["l2", "l3"], 1, 0, none⟩] 0 false (by decide)
    (fun i => by simp [isExcA]) rfl

/-- C9: for every nonempty latency sample, the per-worker percentiles that
`to_dict` computes at `index = floor(percentile * count)` over the sorted
sample (with the single-sample fallback for p95 and p99) satisfy
`p50 <= p95 <= p99`, and each percentile index stays inside the sample. -/
theorem c9_percentile_order (m : RunnerMetrics) (h : m.latencies ≠ []) :
    ((m.to_dict).p50_latency_ms ≤ (m.to_dict).p95_latency_ms
      ∧ (m.to_dict).p95_latency_ms ≤ (m.to_dict).p99_latency_ms)
    ∧ (m.latencies.length * 50 / 100 < m.latencies.length
      ∧ m.latencies.length * 95 / 100 < m.latencies.length
      ∧ m.latencies.length * 99 / 100 < m.latencies.length) := by
  have hn : 1 ≤ m.latencies.length := List.length_pos.mpr h
  have hsort := List.sorted_insertionSort (· ≤ ·) m.latencies
  have hlen := List.length_insertionSort (· ≤ ·) m.latencies
  refine ⟨?_, pct_index_lt _ 50 hn (by norm_num),
    pct_index_lt _ 95 hn (by norm_num), pct_index_lt _ 99 hn (by norm_num)⟩
  simp only [RunnerMetrics.to_dict, if_neg h, hlen]
  by_cases h1 : 1 < m.latencies.length
  · rw [if_pos h1, if_pos h1]
    constructor
    · exact sorted_getD_le _ hsort _ _
        (Nat.div_le_div_right (Nat.mul_le_mul_left _ (by norm_num)))
        (by rw [hlen]; exact pct_index_lt _ 95 hn (by norm_num))
    · exact sorted_getD_le _ hsort _ _
        (Nat.div_le_div_right (Nat.mul_le_mul_left _ (by norm_num)))
        (by rw [hlen]; exact pct_index_lt _ 99 hn (by norm_num))
  · have hone : m.latencies.length = 1 := by omega
    rw [if_neg h1, if_neg h1, hone]
    constructor
    · exact le_of_eq rfl
    · exact le_of_eq rfl

/-- Witness for C9 at a concrete three-sample accumulator. -/
theorem c9_percentile_order_witness :
    ((({ runner_id := 0, latencies := [3, 1, 2] } : RunnerMetrics).to_dict.p50_latency_ms
        ≤ ({ runner_id := 0, latencies := [3, 1, 2] } : RunnerMetrics).to_dict.p95_latency_ms
      ∧ ({ runner_id := 0, latencies := [3, 1, 2] } : RunnerMetrics).to_dict.p95_latency_ms
        ≤ ({ runner_id := 0, latencies := [3, 1, 2] } : RunnerMetrics).to_dict.p99_latency_ms)
    ∧ ((([3, 1, 2] : List ℚ).length * 50 / 100 < ([3, 1, 2] : List ℚ).length
      ∧ ([3, 1, 2] : List ℚ).length * 95 / 100 < ([3, 1, 2] : List ℚ).length
      ∧ ([3, 1, 2] : List ℚ).length * 99 / 100 < ([3, 1, 2] : List ℚ).length))) :=
  c9_percentile_order { runner_id := 0, latencies := [3, 1, 2] } (by decide)

/-- A bulk body has exactly two lines per document. -/
theorem create_bulk_body_length (index_name : String)
    (docs : List (String × String)) :
    (create_bulk_body index_name docs).length = 2 * docs.length := by
  induction docs with
  | nil => simp [create_bulk_body]
  | cons d ds ih =>
    simp [create_bulk_body] at ih ⊢
    omega

/-- The indexed error scan finds a failed entry exactly when the plain item
list has one. -/
theorem enumFrom_filter_error_eq_nil (items : List BulkItem) :
    ∀ i, (((List.enumFrom i items).filter fun q => q.2.error) = [])
      ↔ ((items.filter fun it => it.error) = []) := by
  induction items with
  | nil => intro i; simp [List.enumFrom]
  | cons it rest ih =>
    intro i
    by_cases herr : it.error
    · simp [List.enumFrom, List.filter_cons, herr]
    · simp only [List.enumFrom, List.filter_cons, herr]
      simpa using ih (i + 1)

/-- A nonempty list of failed items yields a nonempty retry line list (two
lines per failed item). -/
theorem flatMap_pair_ne_nil (lines : List String) (l : List (Nat × BulkItem))
    (h : l ≠ []) :
    (l.flatMap fun q => [lines.getD (q.1 * 2) "", lines.getD (q.1 * 2 + 1) ""])
      ≠ [] := by
  cases l with
  | nil => exact absurd rfl h
  | cons a t => simp

/-- C8: for a bulk body of `n` documents and a response whose items array has
at most `n` entries aligned by index with the submitted documents (the
`errors` flag reflecting the item annotations, as the bulk API guarantees),
`_extract_failed_docs` returns a failed count equal to the number of items
carrying an error annotation, and a retry sub-batch holding exactly the
action and content line of each failed item, matched by item index — `None`
when no item failed. -/
theorem c8_extract_failed_docs_spec (index_name : String)
    (docs : List (String × String)) (response : BulkResponse)
    (hitems : response.items.length ≤ docs.length)
    (hflag : response.errors = response.items.any fun it => it.error) :
    (extract_failed_docs (create_bulk_body index_name docs) response).2
      = (response.items.filter fun it => it.error).length
    ∧ (extract_failed_docs (create_bulk_body index_name docs) response).1
      = (if (response.items.filter fun it => it.error) = [] then none
         else some
           (((response.items.enum.filter fun q => q.2.error).flatMap fun q =>
             [(create_bulk_body index_name docs).getD (q.1 * 2) "",
              (create_bulk_body index_name docs).getD (q.1 * 2 + 1) ""]))) := by
  have hcf := collectFailed_spec (create_bulk_body index_name docs)
    response.items 0
    (by
      intro j hj
      rw [create_bulk_body_length]
      omega)
  by_cases herr : response.errors
  · have hany : response.items.any (fun it => it.error) = true := by
      rw [← hflag]; exact herr
    have hfilter : (response.items.filter fun it => it.error) ≠ [] := by
      intro hnil
      rw [List.any_eq_true] at hany
      obtain ⟨it, hmem, hiterr⟩ := hany
      have := List.mem_filter.mpr ⟨hmem, hiterr⟩
      rw [hnil] at this
      simp at this
    have hen : ((List.enumFrom 0 response.items).filter fun q => q.2.error)
        ≠ [] :=
      fun hen => hfilter ((enumFrom_filter_error_eq_nil response.items 0).mp hen)
    have hfm := flatMap_pair_ne_nil (create_bulk_body index_name docs) _ hen
    constructor
    · simp only [extract_failed_docs, herr]
      simp only [Bool.not_true, Bool.false_eq_true, if_false, hcf]
      rw [List.countP_eq_length_filter]
    · simp only [extract_failed_docs, herr]
      simp only [Bool.not_true, Bool.false_eq_true, if_false, hcf]
      rw [if_neg hfilter]
      rw [if_neg (by simpa [List.isEmpty_iff] using hfm)]
      rfl
  · have hany : response.items.any (fun it => it.error) = false := by
      rw [← hflag]
      simp [herr]
    have hfilter : (response.items.filter fun it => it.error) = [] := by
      rw [List.filter_eq_nil_iff]
      intro it hmem
      rw [List.any_eq_false] at hany
      exact hany it hmem
    constructor
    · simp only [extract_failed_docs, herr]
      simp [hfilter]
    · simp only [extract_failed_docs, herr]
      simp [hfilter]

/-- Witness for C8 at a concrete two-document body whose response marks the
first item failed. -/
theorem c8_extract_failed_docs_spec_witness :
    ((⟨true, [⟨true⟩, ⟨false⟩]⟩ : BulkResponse).items.length
        ≤ ([("0", "a"), ("1", "b")] : List (String × String)).length)
    ∧ ((⟨true, [⟨true⟩, ⟨false⟩]⟩ : BulkResponse).errors
        = (⟨true, [⟨true⟩, ⟨false⟩]⟩ : BulkResponse).items.any fun it => it.error)
    ∧ ((extract_failed_docs (create_bulk_body "idx" [("0", "a"), ("1", "b")])
          ⟨true, [⟨true⟩, ⟨false⟩]⟩).2
        = ((⟨true, [⟨true⟩, ⟨false⟩]⟩ : BulkResponse).items.filter
            fun it => it.error).length
      ∧ (extract_failed_docs (create_bulk_body "idx" [("0", "a"), ("1", "b")])
          ⟨true, [⟨true⟩, ⟨false⟩]⟩).1
        = (if ((⟨true, [⟨true⟩, ⟨false⟩]⟩ : BulkResponse).items.filter
              fun it => it.error) = [] then none
           else some
             ((((⟨true, [⟨true⟩, ⟨false⟩]⟩ : BulkResponse).items.enum.filter
                  fun q => q.2.error).flatMap fun q =>
               [(create_bulk_body "idx" [("0", "a"), ("1", "b")]).getD (q.1 * 2) "",
                (create_bulk_body "idx" [("0", "a"), ("1", "b")]).getD
                  (q.1 * 2 + 1) ""])))) :=
  ⟨by decide, rfl,
    c8_extract_failed_docs_spec "idx" [("0", "a"), ("1", "b")]
      ⟨true, [⟨true⟩, ⟨false⟩]⟩ (by decide) rfl⟩

/-- C4 counterexample: in the state where the stop flag is set and the queue
still holds a work unit, the worker loop exits immediately — it does not
dequeue or process the queued unit before exiting (the queue and the
accumulator are left untouched), refuting drain-before-exit at the worker
level. -/
theorem c4_counterexample :
    (worker_loop (fun _ => true) "ingest" (fun _ _ => .exc "x" 0) 3 5 0
        ⟨[⟨["a", "b"], 1, 0, none⟩], initMetrics 0, 0, false⟩).exited = true
    ∧ (worker_loop (fun _ => true) "ingest" (fun _ _ => .exc "x" 0) 3 5 0
        ⟨[⟨["a", "b"], 1, 0, none⟩], initMetrics 0, 0, false⟩).queue
      = [⟨["a", "b"], 1, 0, none⟩]
    ∧ (worker_loop (fun _ => true) "ingest" (fun _ _ => .exc "x" 0) 3 5 0
        ⟨[⟨["a", "b"], 1, 0, none⟩], initMetrics 0, 0, false⟩).metrics
      = initMetrics 0 := by
  decide

/-- C4 amended: the worker loop exits as soon as an iteration observes the
stop flag set, whether or not the queue still holds units; queued work is not
drained by the worker after the flag is observed.  (Queue drain before the
flag is set is the Manager's doing: `run` waits for the queue to empty before
calling `stop`.) -/
theorem c4_loop_exits_on_stop_flag (stop : Nat → Bool) (tag : String)
    (env : Nat → Nat → Attempt) (max_retries fuel iter : Nat)
    (st : WorkerState) (h : stop iter = true) :
    worker_loop stop tag env max_retries (fuel + 1) iter st
      = { st with exited := true } := by
  simp [worker_loop, h]

/-- Witness for the amended C4 at a concrete stopped state with a nonempty
queue. -/
theorem c4_loop_exits_on_stop_flag_witness :
    worker_loop (fun _ => true) "search" (fun _ _ => .resp ⟨false, []⟩ 1) 2
        (7 + 1) 4 ⟨[⟨["q"], 1, 0, some "0"⟩], initMetrics 3, 0, false⟩
      = { (⟨[⟨["q"], 1, 0, some "0"⟩], initMetrics 3, 0, false⟩ : WorkerState)
            with exited := true } :=
  c4_loop_exits_on_stop_flag (fun _ => true) "search"
    (fun _ _ => .resp ⟨false, []⟩ 1) 2 7 4
    ⟨[⟨["q"], 1, 0, some "0"⟩], initMetrics 3, 0, false⟩ rfl

/-- C6 counterexample: with the queue at capacity and `block=False`, the
trailing partial batch is not silently dropped — `queue.put(payload, block=False)`
raises `queue.Full`; and in single mode the `block` flag is ignored entirely
(the enqueue is the always-blocking `queue.put(payload)`), so the unit is
enqueued and counted rather than dropped. -/
theorem c6_counterexample :
    produce_batch "idx" 2 false (fun _ => true) (fun _ => false) [("0", "a")]
      = .error "queue.Full"
    ∧ (produce_single false (fun _ => false) [("0", "q")]).total_produced = 1
    ∧ (produce_single false (fun _ => false) [("0", "q")]).emitted ≠ [] := by
  refine ⟨by rfl, by decide, by decide⟩

/-- C6 amended: with the queue at capacity, a blocking enqueue never drops a
unit (every generator document is enqueued and counted); in every mode
`_total_produced` counts exactly the documents of the units actually
enqueued, so a dropped unit is never counted; but with `block=False` the
trailing partial batch raises `queue.Full` on a full queue instead of
dropping silently, and single mode ignores `block` and always enqueues
blocking. -/
theorem c6_enqueue_modes :
    (∀ (index_name : String) (bulk_size : Nat) (full : Nat → Bool)
        (docs : List (String × String)),
      (produce_batch index_name bulk_size true full (fun _ => false) docs).map
          (fun st => st.total_produced)
        = .ok (docs.length : Int))
    ∧ (∀ (index_name : String) (bulk_size : Nat) (block : Bool)
        (full : Nat → Bool) (docs : List (String × String)) (st1 : ProducerState),
        produce_batch index_name bulk_size block full (fun _ => false) docs
          = .ok st1 →
        st1.total_produced = sumDocCounts st1.emitted)
    ∧ (∀ (index_name : String) (bulk_size : Nat) (docs : List (String × String)),
        0 < docs.length → docs.length < bulk_size →
        produce_batch index_name bulk_size false (fun _ => true) (fun _ => false)
            docs
          = .error "queue.Full")
    ∧ (∀ (block : Bool) (docs : List (String × String)),
        (produce_single block (fun _ => false) docs).total_produced
            = (docs.length : Int)
        ∧ ((produce_single block (fun _ => false) docs).emitted).length
            = docs.length) := by
  refine ⟨?_, ?_, ?_, ?_⟩
  · intro index_name bulk_size full docs
    obtain ⟨st1, h1, h2, h3, h4⟩ :=
      produceBatchGo_blocking index_name bulk_size full docs [] 0 0 ⟨[], 0⟩
    unfold produce_batch
    rw [h1]
    simp only [Except.map]
    rw [h2]
    simp
  · intro index_name bulk_size block full docs st1 h
    have := produceBatchGo_conserves index_name bulk_size block full
      (fun _ => false) docs [] 0 0 ⟨[], 0⟩ st1 h
    simp [sumDocCounts] at this ⊢
    omega
  · intro index_name bulk_size docs hpos hlt
    unfold produce_batch
    exact produceBatchGo_trailing_full index_name bulk_size docs [] 0 0 ⟨[], 0⟩
      (by simpa using hpos) (by simpa using hlt)
  · intro block docs
    obtain ⟨h1, h2⟩ := produceSingleGo_total block docs 0 ⟨[], 0⟩
    unfold produce_single
    constructor
    · rw [h1]
      simp
    · rw [h2]
      simp

/-- Witness for the amended C6 at concrete inputs: one document with batch
size two; blocking mode counts it, non-blocking mode raises on the trailing
batch under a full queue, single mode counts it regardless of `block`. -/
theorem c6_enqueue_modes_witness :
    ((produce_batch "idx" 2 true (fun _ => true) (fun _ => false) [("0", "a")]).map
        (fun st => st.total_produced)
      = .ok ((([("0", "a")] : List (String × String)).length : Int)))
    ∧ (produce_batch "idx" 2 false (fun _ => true) (fun _ => false) [("0", "a")]
        = .error "queue.Full")
    ∧ ((produce_single false (fun _ => false) [("0", "a")]).total_produced
        = (([("0", "a")] : List (String × String)).length : Int)) :=
  ⟨c6_enqueue_modes.1 "idx" 2 (fun _ => true) [("0", "a")],
   c6_enqueue_modes.2.2.1 "idx" 2 [("0", "a")] (by decide) (by decide),
   (c6_enqueue_modes.2.2.2 false [("0", "a")]).1⟩

/-- C7 counterexample: with one expected worker and one delivered accumulator
(five successes), the first `collect_metrics` call reports five successes,
but a second call with no new arrivals reports zero — the call drains the
results channel destructively and keeps no state, so it is not idempotent. -/
theorem c7_counterexample :
    (collect_metrics 1
        [⟨0, 5, 0, 0, 1, 5, 0, 0, 0, 0, 0, 0, 0, 0, 0⟩]).1.total_success = 5
    ∧ (collect_metrics 1
        ((collect_metrics 1
          [⟨0, 5, 0, 0, 1, 5, 0, 0, 0, 0, 0, 0, 0, 0, 0⟩]).2)).1.total_success = 0
    ∧ ((0 : Int) ≠ 5) := by
  refine ⟨by rfl, by rfl, by decide⟩

/-- C7 amended: once all expected workers have reported, one
`collect_metrics` call consumes every delivered accumulator; a second call
with no new arrivals finds the channel empty and returns the zero default
aggregate (`total_success = 0`, `total_fail = 0`, `total_docs = 0`,
`success_rate = 0`, `worker_count` equal to the configured count, no
per-worker entries) — not the first call's totals. -/
theorem c7_second_collect_is_empty (num_workers : Nat) (mq : List RunnerDict)
    (h : mq.length = num_workers) :
    (collect_metrics num_workers mq).2 = []
    ∧ collect_metrics num_workers ((collect_metrics num_workers mq).2)
        = (emptyAggregate num_workers, []) := by
  have hdrop : mq.drop num_workers = [] := by
    apply List.drop_eq_nil_of_le
    omega
  constructor
  · simpa [collect_metrics] using hdrop
  · have h2 : (collect_metrics num_workers mq).2 = [] := by
      simpa [collect_metrics] using hdrop
    rw [h2]
    simp [collect_metrics]

/-- Witness for the amended C7 with one worker and one delivered
accumulator. -/
theorem c7_second_collect_is_empty_witness :
    (collect_metrics 1 [⟨0, 5, 0, 0, 1, 5, 0, 0, 0, 0, 0, 0, 0, 0, 0⟩]).2 = []
    ∧ collect_metrics 1
        ((collect_metrics 1 [⟨0, 5, 0, 0, 1, 5, 0, 0, 0, 0, 0, 0, 0, 0, 0⟩]).2)
      = (emptyAggregate 1, []) :=
  c7_second_collect_is_empty 1 [⟨0, 5, 0, 0, 1, 5, 0, 0, 0, 0, 0, 0, 0, 0, 0⟩]
    (by decide)

/-- Splitting the emitted units among workers splits their document-count
sum. -/
theorem sumDocCounts_flatten (L : List (List Payload)) :
    sumDocCounts L.flatten = (L.map sumDocCounts).sum := by
  unfold sumDocCounts
  rw [List.map_flatten, List.sum_flatten, List.map_map]
  rfl

/-- Reassigning units among workers preserves their document-count sum. -/
theorem sumDocCounts_perm (l1 l2 : List Payload) (h : l1.Perm l2) :
    sumDocCounts l1 = sumDocCounts l2 :=
  List.Perm.sum_eq (h.map _)

/-- C1 amended: for a graceful run — blocking enqueue, no cancellation, full
drain by workers that each observe the stop flag only after their share of
the queue is exhausted — the received accumulators' `total_docs` sum to the
Manager's `total_produced`, PROVIDED no bulk response reports per-item errors
and every unit's attempts include at least one response within the retry
budget (transport exceptions that are retried into a response are fine).
Without that proviso the equality fails: a per-item-error retry re-counts the
re-sent documents in `total_docs`, and a unit whose every attempt raises is
never counted (see the counterexample). -/
theorem c1_total_docs_eq_produced (index_name : String)
    (bulk_size max_retries : Nat) (full : Nat → Bool)
    (docs : List (String × String))
    (workers : List (List Payload × (Nat → Nat → Attempt)))
    (st : ProducerState)
    (hprod : produce_batch index_name bulk_size true full (fun _ => false) docs
      = .ok st)
    (hperm : ((workers.map Prod.fst).flatten).Perm st.emitted)
    (hgood : ∀ w ∈ workers, ∀ k, GoodOracle (w.2 k) max_retries) :
    (workers.map fun w =>
        (worker_loop (fun i => decide (w.1.length ≤ i)) "ingest" w.2 max_retries
            (w.1.length + 1) 0 ⟨w.1, initMetrics 0, 0, false⟩).metrics.total_docs).sum
      = st.total_produced := by
  obtain ⟨st1, h1, h2, h3, h4⟩ :=
    produceBatchGo_blocking index_name bulk_size full docs [] 0 0 ⟨[], 0⟩
  unfold produce_batch at hprod
  rw [h1] at hprod
  simp only [Except.ok.injEq] at hprod
  subst hprod
  have hbody : ∀ p ∈ st1.emitted, p.body ≠ [] := by
    intro p hp
    rcases h4 p hp with hin | hne
    · simp at hin
    · exact hne
  have hworker : ∀ w ∈ workers,
      (worker_loop (fun i => decide (w.1.length ≤ i)) "ingest" w.2 max_retries
          (w.1.length + 1) 0 ⟨w.1, initMetrics 0, 0, false⟩).metrics.total_docs
        = sumDocCounts w.1 := by
    intro w hw
    rw [worker_loop_drain (fun i => decide (w.1.length ≤ i)) "ingest" w.2
      max_retries w.1 (w.1.length + 1) 0 0 (initMetrics 0)
      (by intro j hj; simp; omega)
      (by simp)
      (by omega)]
    have hmem : ∀ p ∈ w.1, p.body ≠ [] := by
      intro p hp
      apply hbody
      rw [← List.Perm.mem_iff hperm]
      rw [List.mem_flatten]
      exact ⟨w.1, List.mem_map.mpr ⟨w, hw, rfl⟩, hp⟩
    have := processUnits_total_docs w.2 max_retries w.1 0 (initMetrics 0)
      (hgood w hw) hmem
    rw [this]
    simp [initMetrics]
  rw [List.map_congr_left hworker]
  have hsum : (workers.map fun w => sumDocCounts w.1).sum
      = sumDocCounts st1.emitted := by
    rw [← sumDocCounts_perm _ _ hperm, sumDocCounts_flatten, List.map_map]
    rfl
  rw [hsum, h3, h2]
  simp [sumDocCounts]

/-- Witness for the amended C1: one worker, one unit of one document whose
only attempt succeeds; the accumulated `total_docs` equals
`total_produced = 1`. -/
theorem c1_total_docs_eq_produced_witness :
    (([([(⟨create_bulk_body "idx" [("0", "a")], 1, 0, none⟩ : Payload)],
        fun (_ _ : Nat) => Attempt.resp ⟨false, []⟩ 1)].map fun w =>
        (worker_loop (fun i => decide (w.1.length ≤ i)) "ingest" w.2 3
            (w.1.length + 1) 0 ⟨w.1, initMetrics 0, 0, false⟩).metrics.total_docs).sum
      = (⟨[⟨create_bulk_body "idx" [("0", "a")], 1, 0, none⟩], 1⟩
          : ProducerState).total_produced) :=
  c1_total_docs_eq_produced "idx" 1 3 (fun _ => false) [("0", "a")]
    [([⟨create_bulk_body "idx" [("0", "a")], 1, 0, none⟩],
      fun _ _ => .resp ⟨false, []⟩ 1)]
    ⟨[⟨create_bulk_body "idx" [("0", "a")], 1, 0, none⟩], 1⟩
    rfl (List.Perm.refl _)
    (by
      intro w hw k
      rcases List.mem_singleton.mp hw with rfl
      exact ⟨fun i => rfl, 0, Nat.zero_le _, fun hx => hx⟩)

/-- C1 counterexample: a graceful run — blocking enqueue, drain before stop —
of one batch unit of two documents in which the first bulk response marks one
item failed and the retried sub-batch then succeeds.  Every document is
eventually indexed, yet the worker's `total_docs` is 3 while the Manager's
`total_produced` is 2: the write path adds `current_doc_count` again on every
response-returning attempt, so retried documents are double counted, refuting
the claimed equality for runs with per-item-error retries. -/
theorem c1_counterexample :
    (produce_batch "idx" 2 true (fun _ => false) (fun _ => false)
        [("0", "a"), ("1", "b")]).map
      (fun st =>
        ((worker_loop (fun i => decide (1 ≤ i)) "ingest"
            (fun _ k => if k = 0 then .resp ⟨true, [⟨true⟩, ⟨false⟩]⟩ 1
                        else .resp ⟨false, [⟨false⟩]⟩ 1) 3 2 0
            ⟨st.emitted, initMetrics 0, 0, false⟩).metrics.total_docs,
         st.total_produced))
      = .ok (3, 2)
    ∧ ((3 : Int) ≠ 2) := by
  refine ⟨by rfl, by decide⟩
